import Mathlib

/-!
Shallow embedding of `app.py` from the dog-breed classification app.

The app is a Flask front end over three pretrained models: a Haar-cascade
face detector, a ResNet50 ImageNet classifier used for dog detection, and
an Xception-based breed classifier head.  The trained models themselves are
external artifacts; we model each model's raw output as an abstract function
of the image path, packaged in an `Oracle`, and embed faithfully the code
that the repository itself contains: the argmax/threshold logic of
`dog_detector`, the table lookup of `predict_breed`, the three-way decision
of `main_algorithm`, and the three Flask views (`index`, `uploaded_images`,
`predictions`) as transformers of a web state consisting of the upload
directory contents and the session's `file_urls` key.
-/

namespace DogBreedApp

/-- The external model artifacts, abstracted as functions of the image path.
`faceDet p` is the boolean result of the OpenCV cascade in `face_detector`
(`len(faces) > 0`); `resnetOut p` is the ResNet50 class-score vector that
`dog_detector` takes the argmax of (1000 ImageNet classes in the real app);
`xceptionOut p` is the breed-class score vector produced by the Xception
head in `predict_breed` (a `Dense(133, softmax)` layer, so 133 entries in
the real app); `dogNames` is the static breed-name table unpickled from
`utility_files/dog_names.pickle`. -/
structure Oracle where
  faceDet : String → Bool
  resnetOut : String → List ℚ
  xceptionOut : String → List ℚ
  dogNames : List String

/-- Auxiliary loop for `npArgmax`: scan the tail, keeping the index `best`
of the best value `bv` seen so far and the index `i` of the next element.
A strict `bv < x` test keeps the FIRST occurrence of the maximum, matching
`np.argmax` tie-breaking. -/
def argmaxAux : List ℚ → Nat → Nat → ℚ → Nat
  | [], _, best, _ => best
  | x :: xs, i, best, bv =>
      if bv < x then argmaxAux xs (i + 1) i x else argmaxAux xs (i + 1) best bv

/-- Embedding of `np.argmax` on a non-empty vector: the index of the first
occurrence of the maximum entry.  (The app only applies it to model output
vectors, which are non-empty; the `[]` case is unreachable there.) -/
def npArgmax : List ℚ → Nat
  | [] => 0
  | x :: xs => argmaxAux xs 1 0 x

/-- Embedding of `dog_detector` (app.py lines 146-165): take the argmax of
the ResNet50 prediction vector and test
`(prediction <= 268) & (prediction >= 151)`. -/
def dog_detector (o : Oracle) (p : String) : Bool :=
  let prediction := npArgmax (o.resnetOut p)
  decide (prediction ≤ 268) && decide (prediction ≥ 151)

/-- Embedding of `predict_breed` (app.py lines 168-194): index the unpickled
`dog_names` table at `np.argmax(predicted_vector)`.  Python list indexing
raises `IndexError` out of range, so the result is an `Option`: `none` is
the unhandled-exception outcome. -/
def predict_breed (o : Oracle) (p : String) : Option String :=
  o.dogNames[npArgmax (o.xceptionOut p)]?

/-- The message of the face branch of `main_algorithm`, with the breed name
substituted for the format placeholder. -/
def humanMsg (breed : String) : String :=
  "Looks like a human! If this were a dog, though, I would guess a " ++ breed

/-- The message of the dog branch of `main_algorithm`. -/
def dogMsg (breed : String) : String :=
  "Looks like a dog! Perhaps a " ++ breed

/-- The fixed cannot-classify message of the final branch of
`main_algorithm`, verbatim from the source (including its typo). -/
def noIdeaMsg : String :=
  "Well...I have now idea what this is. Apologies. Please try another image."

/-- Embedding of `main_algorithm` (app.py lines 197-219): face branch, then
dog branch, then the fixed fallback message.  A `none` from `predict_breed`
(an exception in Python) propagates. -/
def main_algorithm (o : Oracle) (p : String) : Option String :=
  if o.faceDet p then
    match predict_breed o p with
    | none => none
    | some breed => some (humanMsg breed)
  else if dog_detector o p then
    match predict_breed o p with
    | none => none
    | some breed => some (dogMsg breed)
  else
    some noIdeaMsg

/-!  The web layer.  The mutable state a request sees is the set of files in
the `uploads` directory and the session's `file_urls` key; the directory is
modelled as a list in insertion order (the spec's reading of `iterdir` under
the stated no-intervening-mutation assumption), and the session key as an
`Option` — `none` meaning the key is absent. -/

/-- The per-request mutable state: the upload directory contents and the
session's `file_urls` entry (`none` = key absent). -/
structure WebState where
  uploads : List String
  file_urls : Option (List String)
deriving DecidableEq

/-- The filesystem/URL services of `flask_uploads`, abstracted: `store f`
is the filename under which `photos.save` stores an uploaded file named
`f`, and `urlOf n` is `photos.url(n)`. -/
structure WebEnv where
  store : String → String
  urlOf : String → String

/-- An HTTP request method, as `request.method` distinguishes them. -/
inductive Method
  | get
  | post
deriving DecidableEq

/-- The two ways the `index` view returns: the `"uploading..."` string on
POST, or the rendered `index.html` page on GET. -/
inductive IndexResponse
  | uploading
  | page
deriving DecidableEq

/-- The upload loop of the `index` view (app.py lines 239-242): for each
uploaded file, save it into the uploads directory and append its URL to the
session list. -/
def uploadLoop (env : WebEnv) : List String → List String → List String → List String × List String
  | [], ups, urls => (ups, urls)
  | f :: fs, ups, urls =>
      let filename := env.store f
      uploadLoop env fs (ups ++ [filename]) (urls ++ [env.urlOf filename])

/-- Embedding of the `index` view (app.py lines 222-247).  In source order:
delete every file of the uploads directory; if the session has `file_urls`,
reset it to `[]`; then on POST ensure the key exists, read it, run the
upload loop, store the list back and answer `"uploading..."`; on GET render
the page. -/
def index (env : WebEnv) (s : WebState) (m : Method) (files : List String) :
    WebState × IndexResponse :=
  let purged : WebState := ⟨[], s.file_urls⟩
  let reset : WebState :=
    ⟨purged.uploads, if purged.file_urls.isSome then some [] else purged.file_urls⟩
  match m with
  | Method.post =>
      let init : List String :=
        match reset.file_urls with
        | none => []
        | some l => l
      let (ups, urls) := uploadLoop env files reset.uploads init
      (⟨ups, some urls⟩, IndexResponse.uploading)
  | Method.get => (reset, IndexResponse.page)

/-- The two ways the `/results` view returns: a redirect to `/`, or the
rendered list of uploaded image URLs. -/
inductive ResultsResponse
  | redirectIndex
  | rendered (file_urls : List String)
deriving DecidableEq

/-- Embedding of the `uploaded_images` view (app.py lines 250-258): redirect
home when `file_urls` is absent from the session or equals `[]`, otherwise
render the list.  The view mutates nothing. -/
def uploaded_images (s : WebState) : ResultsResponse :=
  match s.file_urls with
  | none => ResultsResponse.redirectIndex
  | some [] => ResultsResponse.redirectIndex
  | some urls => ResultsResponse.rendered urls

/-- How a request to the `/predictions` view can die: a `KeyError` from
`session["file_urls"]` when the key is absent, or an exception escaping
`main_algorithm` on some file. -/
inductive PredErr
  | keyError
  | classifyError
deriving DecidableEq

/-- The prediction loop of the `predictions` view (app.py lines 267-270):
run `main_algorithm` on each path in turn, appending the messages; an
exception (`none`) aborts the loop. -/
def classifyLoop (o : Oracle) : List String → List String → Option (List String)
  | [], acc => some acc
  | p :: ps, acc =>
      match main_algorithm o p with
      | none => none
      | some m => classifyLoop o ps (acc ++ [m])

/-- Embedding of the `predictions` view (app.py lines 261-273).  It reads
`session["file_urls"]` unconditionally (a `KeyError` when absent), pops the
key, lists the uploads directory, runs the classification loop, and renders
the URL list next to the prediction list.  The returned state is the state
the request leaves behind even when the response is an error. -/
def predictions (o : Oracle) (s : WebState) :
    WebState × Except PredErr (List String × List String) :=
  match s.file_urls with
  | none => (s, Except.error PredErr.keyError)
  | some file_urls =>
      let popped : WebState := ⟨s.uploads, none⟩
      match classifyLoop o s.uploads [] with
      | none => (popped, Except.error PredErr.classifyError)
      | some preds => (popped, Except.ok (file_urls, preds))

/-! Basic lemmas about the argmax and the loops. -/

/-- When nothing in the remaining list beats the best value seen, the scan
keeps the recorded index. -/
lemma argmaxAux_of_forall_le (l : List ℚ) :
    ∀ (i best : Nat) (bv : ℚ), (∀ y ∈ l, ¬ bv < y) → argmaxAux l i best bv = best := by
  induction l with
  | nil => intro i best bv _; rfl
  | cons x xs ih =>
      intro i best bv h
      have hx : ¬ bv < x := h x (List.mem_cons_self x xs)
      simp only [argmaxAux, if_neg hx]
      exact ih (i + 1) best bv (fun y hy => h y (List.mem_cons_of_mem x hy))

/-- The scan's result stays below `n` when the recorded index is below `n`
and the indices of the remaining elements are below `n`. -/
lemma argmaxAux_lt (l : List ℚ) :
    ∀ (i best : Nat) (bv : ℚ) (n : Nat), best < n → i + l.length ≤ n →
      argmaxAux l i best bv < n := by
  induction l with
  | nil => intro i best bv n hb _; exact hb
  | cons x xs ih =>
      intro i best bv n hb hi
      simp only [List.length_cons] at hi
      by_cases hx : bv < x
      · simp only [argmaxAux, if_pos hx]
        exact ih (i + 1) i x n (by omega) (by omega)
      · simp only [argmaxAux, if_neg hx]
        exact ih (i + 1) best bv n hb (by omega)

/-- On a non-empty vector, `npArgmax` is a valid index. -/
lemma npArgmax_lt (l : List ℚ) (h : l ≠ []) : npArgmax l < l.length := by
  cases l with
  | nil => exact absurd rfl h
  | cons x xs =>
      simp only [npArgmax, List.length_cons]
      exact argmaxAux_lt xs 1 0 x (xs.length + 1) (by omega) (by omega)

/-- Under the real artifact shapes — a 133-unit softmax head and a breed
table with one name per class — `predict_breed` succeeds and returns the
table entry at the argmax index. -/
lemma predict_breed_some (o : Oracle) (p : String)
    (hx : (o.xceptionOut p).length = 133) (hn : o.dogNames.length = 133) :
    ∃ h : npArgmax (o.xceptionOut p) < o.dogNames.length,
      predict_breed o p = some (o.dogNames.get ⟨npArgmax (o.xceptionOut p), h⟩) := by
  have hne : o.xceptionOut p ≠ [] := by
    intro hcon
    rw [hcon] at hx
    simp at hx
  have hlt : npArgmax (o.xceptionOut p) < o.dogNames.length := by
    have := npArgmax_lt (o.xceptionOut p) hne
    omega
  refine ⟨hlt, ?_⟩
  rw [List.get_eq_getElem]
  exact List.getElem?_eq_getElem hlt

/-- Unfolding of the upload loop: it appends the stored filenames to the
directory and the corresponding URLs to the session list, in upload order. -/
lemma uploadLoop_eq (env : WebEnv) (files : List String) :
    ∀ (ups urls : List String),
      uploadLoop env files ups urls =
        (ups ++ files.map env.store, urls ++ files.map (fun f => env.urlOf (env.store f))) := by
  induction files with
  | nil => intro ups urls; simp [uploadLoop]
  | cons f fs ih =>
      intro ups urls
      simp only [uploadLoop, List.map_cons]
      rw [ih]
      simp

/-- A constant score vector has its first maximum at index 0. -/
lemma npArgmax_replicate (n : Nat) (x : ℚ) : npArgmax (List.replicate n x) = 0 := by
  cases n with
  | zero => rfl
  | succ m =>
      rw [List.replicate_succ]
      simp only [npArgmax]
      exact argmaxAux_of_forall_le (List.replicate m x) 1 0 x
        (fun y hy => by rw [List.eq_of_mem_replicate hy]; exact lt_irrefl x)

/-- Under the real artifact shapes, `main_algorithm` never raises: each of
its three branches produces a message. -/
lemma main_algorithm_some (o : Oracle) (p : String)
    (hx : (o.xceptionOut p).length = 133) (hn : o.dogNames.length = 133) :
    ∃ m, main_algorithm o p = some m := by
  obtain ⟨hlt, hpb⟩ := predict_breed_some o p hx hn
  cases hf : o.faceDet p with
  | true =>
      exact ⟨humanMsg (o.dogNames.get ⟨npArgmax (o.xceptionOut p), hlt⟩),
        by simp [main_algorithm, hf, hpb]⟩
  | false =>
      cases hd : dog_detector o p with
      | true =>
          exact ⟨dogMsg (o.dogNames.get ⟨npArgmax (o.xceptionOut p), hlt⟩),
            by simp [main_algorithm, hf, hd, hpb]⟩
      | false => exact ⟨noIdeaMsg, by simp [main_algorithm, hf, hd]⟩

/-- Closed form of a POST to `/`: whatever the prior state, the uploads
directory afterwards holds exactly this batch of stored files, the session
list holds exactly their URLs in upload order, and the response is the
uploading acknowledgement. -/
lemma index_post (env : WebEnv) (s : WebState) (files : List String) :
    index env s Method.post files =
      (⟨files.map env.store, some (files.map (fun f => env.urlOf (env.store f)))⟩,
       IndexResponse.uploading) := by
  unfold index
  cases h : s.file_urls with
  | none => simp [h, uploadLoop_eq]
  | some l => simp [h, uploadLoop_eq]

/-- Closed form of a GET to `/`: the uploads directory is emptied and a
present session list is reset to `[]`. -/
lemma index_get (env : WebEnv) (s : WebState) (files : List String) :
    index env s Method.get files =
      (⟨[], if s.file_urls.isSome then some [] else none⟩, IndexResponse.page) := by
  unfold index
  cases h : s.file_urls with
  | none => simp [h]
  | some l => simp [h]

/-- The classification loop on two paths whose classifications succeed. -/
lemma classifyLoop_two (o : Oracle) (p1 p2 : String) (m1 m2 : String)
    (h1 : main_algorithm o p1 = some m1) (h2 : main_algorithm o p2 = some m2) :
    classifyLoop o [p1, p2] [] = some [m1, m2] := by
  simp [classifyLoop, h1, h2]

/-! Concrete fixtures used by the witness theorems: small oracles with the
documented artifact shapes (a 133-entry breed vector and table), plus one
deliberately broken oracle whose empty breed table makes `predict_breed`
raise. -/

/-- A fixture oracle whose face detector always fires and whose score
vectors are constant, so every argmax is 0. -/
def faceOracle : Oracle :=
  ⟨fun _ => true, fun _ => [0], fun _ => List.replicate 133 0,
   List.replicate 133 "Affenpinscher"⟩

/-- A fixture oracle that sees neither a face nor a dog (ResNet argmax 0 is
outside the dog range 151-268). -/
def blankOracle : Oracle :=
  ⟨fun _ => false, fun _ => [0], fun _ => List.replicate 133 0,
   List.replicate 133 "Affenpinscher"⟩

/-- A fixture oracle with an empty breed table: `predict_breed` hits an
out-of-range index, the embedded `IndexError`. -/
def brokenOracle : Oracle :=
  ⟨fun _ => true, fun _ => [0], fun _ => [0], []⟩

/-- A fixture upload environment: files are stored under their own name and
the URL is the name under a fixed directory. -/
def plainEnv : WebEnv :=
  ⟨fun f => f, fun n => "/uploads/" ++ n⟩

/-! The claims. -/

/-- C3: for every image path, `dog_detector` returns true exactly when the
argmax of the classifier output vector lies in the inclusive index range
151 to 268 reserved for dog categories; any argmax outside that range gives
false. -/
theorem dog_detector_iff_range (o : Oracle) (p : String) :
    dog_detector o p = true ↔
      151 ≤ npArgmax (o.resnetOut p) ∧ npArgmax (o.resnetOut p) ≤ 268 := by
  simp only [dog_detector, Bool.and_eq_true, decide_eq_true_eq, ge_iff_le]
  exact and_comm

/-- C6: every request to `/`, whatever the prior state and session, leaves
the upload directory holding no prior file: after a GET it is empty, and
after a POST it holds exactly the files stored by that request. -/
theorem index_purges_uploads (env : WebEnv) (s : WebState) (files : List String) :
    (index env s Method.get files).1.uploads = [] ∧
    (index env s Method.post files).1.uploads = files.map env.store := by
  rw [index_get, index_post]
  exact ⟨rfl, rfl⟩

/-- C8: a request to `/predictions` while the session lacks the
`file_urls` key dies on the unguarded `session["file_urls"]` read: the
result is the `KeyError` outcome, not a redirect or a rendered page, and
the state is untouched. -/
theorem predictions_keyerror (o : Oracle) (up : List String) :
    predictions o ⟨up, none⟩ = (⟨up, none⟩, Except.error PredErr.keyError) := rfl

/-- C9: the purge and session reset run on POST requests to `/` too: after
any single POST, the upload directory holds exactly that batch of stored
files, the session list holds exactly that batch's URLs in upload order,
and the response is the uploading acknowledgement — whatever files and
session list existed before. -/
theorem index_post_overwrites (env : WebEnv) (s : WebState) (files : List String) :
    (index env s Method.post files).1.uploads = files.map env.store ∧
    (index env s Method.post files).1.file_urls =
      some (files.map (fun f => env.urlOf (env.store f))) ∧
    (index env s Method.post files).2 = IndexResponse.uploading := by
  rw [index_post]
  exact ⟨rfl, rfl, rfl⟩

/-- C2: when the face detector and the dog detector both come back false,
`main_algorithm` returns the fixed cannot-classify message, and the result
does not depend on the breed-prediction components at all (any oracle with
the same face detector and ResNet output gives the same answer, whatever
its Xception head and breed table do), so the breed predictor is never
invoked on that path. -/
theorem main_algorithm_no_idea (o o' : Oracle) (p : String)
    (hface : o.faceDet p = false) (hdog : dog_detector o p = false)
    (hf : o'.faceDet = o.faceDet) (hr : o'.resnetOut = o.resnetOut) :
    main_algorithm o p = some noIdeaMsg ∧ main_algorithm o' p = some noIdeaMsg := by
  have hdog' : dog_detector o' p = false := by
    simp only [dog_detector, hr] at hdog ⊢
    exact hdog
  have hface' : o'.faceDet p = false := by rw [hf]; exact hface
  constructor
  · simp [main_algorithm, hface, hdog]
  · simp [main_algorithm, hface', hdog']

/-- Witness for C2 at a concrete oracle that sees neither a face nor a
dog: hypotheses checked by evaluation, conclusion by the theorem. -/
theorem main_algorithm_no_idea_witness :
    blankOracle.faceDet "blank.png" = false ∧
    dog_detector blankOracle "blank.png" = false ∧
    blankOracle.faceDet = blankOracle.faceDet ∧
    blankOracle.resnetOut = blankOracle.resnetOut ∧
    (main_algorithm blankOracle "blank.png" = some noIdeaMsg ∧
     main_algorithm blankOracle "blank.png" = some noIdeaMsg) :=
  ⟨rfl, by decide, rfl, rfl,
   main_algorithm_no_idea blankOracle blankOracle "blank.png" rfl (by decide) rfl rfl⟩

/-- C7: a GET to `/results` redirects to `/` when the session URL list is
absent or empty, and renders the non-empty list (no redirect) otherwise.
The view leaves the state untouched, so only the response is at stake. -/
theorem results_redirect_or_render (up urls : List String) (h : urls ≠ []) :
    uploaded_images ⟨up, none⟩ = ResultsResponse.redirectIndex ∧
    uploaded_images ⟨up, some []⟩ = ResultsResponse.redirectIndex ∧
    uploaded_images ⟨up, some urls⟩ = ResultsResponse.rendered urls := by
  refine ⟨rfl, rfl, ?_⟩
  cases urls with
  | nil => exact absurd rfl h
  | cons a l => rfl

/-- Witness for C7 at a concrete directory and URL list. -/
theorem results_redirect_or_render_witness :
    (["/uploads/a.png"] : List String) ≠ [] ∧
    (uploaded_images ⟨["a.png"], none⟩ = ResultsResponse.redirectIndex ∧
     uploaded_images ⟨["a.png"], some []⟩ = ResultsResponse.redirectIndex ∧
     uploaded_images ⟨["a.png"], some ["/uploads/a.png"]⟩ =
       ResultsResponse.rendered ["/uploads/a.png"]) :=
  ⟨by decide, results_redirect_or_render ["a.png"] ["/uploads/a.png"] (by decide)⟩

/-- C10: `/predictions` pops the session key before any classification
runs: whenever the key is present, the state left behind has it removed
and the upload directory untouched, and in particular when the
classification loop dies the error outcome still carries the cleared
session — the mutation is not rolled back. -/
theorem predictions_pops_first (o : Oracle) (s : WebState) (urls : List String)
    (h : s.file_urls = some urls) :
    (predictions o s).1 = ⟨s.uploads, none⟩ ∧
    (classifyLoop o s.uploads [] = none →
      (predictions o s).2 = Except.error PredErr.classifyError ∧
      (predictions o s).1.file_urls = none) := by
  obtain ⟨ups, fu⟩ := s
  cases fu with
  | none => exact Option.noConfusion h
  | some l =>
      simp only [predictions]
      cases hc : classifyLoop o ups [] with
      | none => exact ⟨rfl, fun _ => ⟨rfl, rfl⟩⟩
      | some preds =>
          refine ⟨rfl, fun hnone => ?_⟩
          exact Option.noConfusion hnone

/-- Witness for C10 at the broken oracle, whose empty breed table makes
the classification of the one uploaded file raise: the request errors out,
yet the session key is gone. -/
theorem predictions_pops_first_witness :
    (⟨["x.png"], some ["/uploads/x.png"]⟩ : WebState).file_urls =
      some ["/uploads/x.png"] ∧
    ((predictions brokenOracle ⟨["x.png"], some ["/uploads/x.png"]⟩).1 =
        ⟨["x.png"], none⟩ ∧
      (classifyLoop brokenOracle ["x.png"] [] = none →
        (predictions brokenOracle ⟨["x.png"], some ["/uploads/x.png"]⟩).2 =
          Except.error PredErr.classifyError ∧
        (predictions brokenOracle ⟨["x.png"], some ["/uploads/x.png"]⟩).1.file_urls =
          none)) ∧
    classifyLoop brokenOracle ["x.png"] [] = none :=
  ⟨rfl,
   predictions_pops_first brokenOracle ⟨["x.png"], some ["/uploads/x.png"]⟩
     ["/uploads/x.png"] rfl,
   rfl⟩

/-- C5: `predict_breed` is the table lookup at the argmax of the breed
score vector: under the artifact shapes it returns an element of the
static breed-name table, and the result depends only on the Xception
output and the table — two calls with the same input and the same fixed
weights return the same string. -/
theorem predict_breed_from_table (o : Oracle) (p : String)
    (hx : (o.xceptionOut p).length = 133) (hn : o.dogNames.length = 133) :
    ∃ breed,
      predict_breed o p = some breed ∧
      breed ∈ o.dogNames ∧
      o.dogNames[npArgmax (o.xceptionOut p)]? = some breed ∧
      ∀ o' : Oracle, o'.xceptionOut = o.xceptionOut → o'.dogNames = o.dogNames →
        predict_breed o' p = some breed := by
  obtain ⟨hlt, hpb⟩ := predict_breed_some o p hx hn
  refine ⟨_, hpb, ?_, hpb, ?_⟩
  · simp only [List.get_eq_getElem]
    exact List.getElem_mem hlt
  · intro o' h1 h2
    simp only [predict_breed, h1, h2]
    exact hpb

/-- Witness for C5 at a concrete oracle with the artifact shapes. -/
theorem predict_breed_from_table_witness :
    (faceOracle.xceptionOut "dog.jpg").length = 133 ∧
    faceOracle.dogNames.length = 133 ∧
    (∃ breed,
      predict_breed faceOracle "dog.jpg" = some breed ∧
      breed ∈ faceOracle.dogNames ∧
      faceOracle.dogNames[npArgmax (faceOracle.xceptionOut "dog.jpg")]? = some breed ∧
      ∀ o' : Oracle, o'.xceptionOut = faceOracle.xceptionOut →
        o'.dogNames = faceOracle.dogNames →
        predict_breed o' "dog.jpg" = some breed) :=
  ⟨by simp [faceOracle], by simp [faceOracle],
   predict_breed_from_table faceOracle "dog.jpg"
     (by simp [faceOracle]) (by simp [faceOracle])⟩

/-- C1: `main_algorithm` is a flat three-way decision.  Face detected:
the answer is the human message carrying the predicted breed (it contains
the word human and ends in the breed name, an element of the table).
Otherwise dog detected: the looks-like-a-dog message carrying the breed.
Otherwise: the fixed cannot-classify message. -/
theorem main_algorithm_three_way (o : Oracle) (p : String)
    (hx : (o.xceptionOut p).length = 133) (hn : o.dogNames.length = 133) :
    (o.faceDet p = true →
      ∃ breed, predict_breed o p = some breed ∧ breed ∈ o.dogNames ∧
        main_algorithm o p = some (humanMsg breed) ∧
        (∃ s1 s2, humanMsg breed = s1 ++ "human" ++ s2) ∧
        (∃ s3, humanMsg breed = s3 ++ breed)) ∧
    (o.faceDet p = false → dog_detector o p = true →
      ∃ breed, predict_breed o p = some breed ∧ breed ∈ o.dogNames ∧
        main_algorithm o p = some (dogMsg breed) ∧
        (∃ s1 s2, dogMsg breed = s1 ++ "Looks like a dog" ++ s2) ∧
        (∃ s3, dogMsg breed = s3 ++ breed)) ∧
    (o.faceDet p = false → dog_detector o p = false →
      main_algorithm o p = some noIdeaMsg) := by
  obtain ⟨hlt, hpb⟩ := predict_breed_some o p hx hn
  have hmem : o.dogNames.get ⟨npArgmax (o.xceptionOut p), hlt⟩ ∈ o.dogNames := by
    simp only [List.get_eq_getElem]
    exact List.getElem_mem hlt
  refine ⟨fun hface => ?_, fun hface hdog => ?_, fun hface hdog => ?_⟩
  · refine ⟨_, hpb, hmem, by simp [main_algorithm, hface, hpb], ?_, ?_⟩
    · exact ⟨"Looks like a ",
        "! If this were a dog, though, I would guess a " ++
          o.dogNames.get ⟨npArgmax (o.xceptionOut p), hlt⟩, rfl⟩
    · exact ⟨"Looks like a human! If this were a dog, though, I would guess a ", rfl⟩
  · refine ⟨_, hpb, hmem, by simp [main_algorithm, hface, hdog, hpb], ?_, ?_⟩
    · exact ⟨"", "! Perhaps a " ++ o.dogNames.get ⟨npArgmax (o.xceptionOut p), hlt⟩, rfl⟩
    · exact ⟨"Looks like a dog! Perhaps a ", rfl⟩
  · simp [main_algorithm, hface, hdog]

/-- Witness for C1 at a concrete oracle whose face detector fires. -/
theorem main_algorithm_three_way_witness :
    (faceOracle.xceptionOut "img.jpg").length = 133 ∧
    faceOracle.dogNames.length = 133 ∧
    ((faceOracle.faceDet "img.jpg" = true →
      ∃ breed, predict_breed faceOracle "img.jpg" = some breed ∧
        breed ∈ faceOracle.dogNames ∧
        main_algorithm faceOracle "img.jpg" = some (humanMsg breed) ∧
        (∃ s1 s2, humanMsg breed = s1 ++ "human" ++ s2) ∧
        (∃ s3, humanMsg breed = s3 ++ breed)) ∧
     (faceOracle.faceDet "img.jpg" = false → dog_detector faceOracle "img.jpg" = true →
      ∃ breed, predict_breed faceOracle "img.jpg" = some breed ∧
        breed ∈ faceOracle.dogNames ∧
        main_algorithm faceOracle "img.jpg" = some (dogMsg breed) ∧
        (∃ s1 s2, dogMsg breed = s1 ++ "Looks like a dog" ++ s2) ∧
        (∃ s3, dogMsg breed = s3 ++ breed)) ∧
     (faceOracle.faceDet "img.jpg" = false → dog_detector faceOracle "img.jpg" = false →
      main_algorithm faceOracle "img.jpg" = some noIdeaMsg)) :=
  ⟨by simp [faceOracle], by simp [faceOracle],
   main_algorithm_three_way faceOracle "img.jpg"
     (by simp [faceOracle]) (by simp [faceOracle])⟩

/-- C4: uploading exactly two files by POST and then visiting
`/predictions` with no intervening directory mutation yields exactly two
prediction strings, and the i-th prediction is `main_algorithm` on the
i-th stored file, rendered next to that file's URL — order-matched to
upload order. -/
theorem two_uploads_two_predictions (env : WebEnv) (o : Oracle) (s : WebState)
    (f1 f2 : String)
    (hx : ∀ q, (o.xceptionOut q).length = 133) (hn : o.dogNames.length = 133) :
    ∃ m1 m2 : String,
      main_algorithm o (env.store f1) = some m1 ∧
      main_algorithm o (env.store f2) = some m2 ∧
      predictions o (index env s Method.post [f1, f2]).1 =
        (⟨[env.store f1, env.store f2], none⟩,
         Except.ok ([env.urlOf (env.store f1), env.urlOf (env.store f2)],
           [m1, m2])) := by
  obtain ⟨m1, h1⟩ := main_algorithm_some o (env.store f1) (hx _) hn
  obtain ⟨m2, h2⟩ := main_algorithm_some o (env.store f2) (hx _) hn
  refine ⟨m1, m2, h1, h2, ?_⟩
  rw [index_post]
  simp only [List.map_cons, List.map_nil, predictions]
  rw [classifyLoop_two o (env.store f1) (env.store f2) m1 m2 h1 h2]

/-- Witness for C4: two files uploaded to a fresh state through the plain
environment, classified by the blank oracle. -/
theorem two_uploads_two_predictions_witness :
    (∀ q, (blankOracle.xceptionOut q).length = 133) ∧
    blankOracle.dogNames.length = 133 ∧
    (∃ m1 m2 : String,
      main_algorithm blankOracle (plainEnv.store "a.png") = some m1 ∧
      main_algorithm blankOracle (plainEnv.store "b.png") = some m2 ∧
      predictions blankOracle
          (index plainEnv ⟨[], none⟩ Method.post ["a.png", "b.png"]).1 =
        (⟨[plainEnv.store "a.png", plainEnv.store "b.png"], none⟩,
         Except.ok ([plainEnv.urlOf (plainEnv.store "a.png"),
                     plainEnv.urlOf (plainEnv.store "b.png")], [m1, m2]))) :=
  ⟨fun q => by simp [blankOracle], by simp [blankOracle],
   two_uploads_two_predictions plainEnv blankOracle ⟨[], none⟩ "a.png" "b.png"
     (fun q => by simp [blankOracle]) (by simp [blankOracle])⟩

end DogBreedApp
